import Mathlib

/-!
# Verification of the LexV2 voice-bot adapter (`src/extras/LexV2Feature.js`)

This file is a shallow embedding, in Lean 4, of the algorithmic core of the
`LexV2Feature` class and its helpers (`LexUtils.downsampleAudio`,
`LexUtils.encodeWAV`, `decodeResponse`, `decodeAndUnzipJsonString`, the
microphone recording state machine and the `_process` request pipeline),
together with theorems settling the specification claims about them.

Modelling conventions:
* JavaScript numbers that hold audio samples and sample rates are modelled as
  rationals (`ℚ`); the arithmetic performed by the relevant code paths
  (sums, division, `Math.round`, clamping, scaling, truncation) is exact on
  the inputs the claims speak about, so no floating-point rounding is modelled.
* A JavaScript function that can `throw` or return `undefined` is modelled
  with the `JsOutcome` type below.
* `Uint8Array`/`DataView` buffers are modelled as `List ℕ` of byte values.
* External library functions (`atob`, `pako.inflate`, `JSON.parse`) are taken
  as parameters of the definitions that use them: the code treats them as
  black boxes, and the claims only constrain how they are composed.
-/

namespace LexV2

/-- JavaScript `Math.round`: round half away from zero toward `+∞`,
i.e. `⌊x + 1/2⌋`. -/
def jround (x : ℚ) : ℤ := ⌊x + 1 / 2⌋

/-- JavaScript number-to-integer conversion (`ToInteger`, used by
`DataView.setInt16`): truncation toward zero. -/
def jtrunc (q : ℚ) : ℤ := if q < 0 then ⌈q⌉ else ⌊q⌋

/-- The outcome of calling a JavaScript function: either an exception was
thrown, or a value was returned (`result none` models returning
`undefined`). -/
inductive JsOutcome (α : Type) where
  | thrown (msg : String)
  | result (v : Option α)
deriving DecidableEq

/-! ## `LexUtils.downsampleAudio` -/

/-- The inner `for` loop of `downsampleAudio`: starting from
`i = bufferOffset`, while `i < nextBufferOffset && i < buffer.length`,
accumulate `buffer[i]` and count the samples.  Returns
`(accumulator, count)`. -/
def windowAcc (buffer : List ℚ) (bufferOffset nextBufferOffset : ℕ) :
    ℚ × ℕ :=
  let idxs := List.range' bufferOffset (min nextBufferOffset buffer.length - bufferOffset)
  ((idxs.map (fun i => buffer.getD i 0)).sum, idxs.length)

/-- The `while (position < newLength)` loop of `downsampleAudio`, written with
the remaining iteration count (`newLength - position`) as fuel.  Each
iteration computes `nextBufferOffset = Math.round((position + 1) * ratio)`,
averages the window `[bufferOffset, min nextBufferOffset buffer.length)` and
emits `accumulator / count`.

(When the window is empty the JavaScript code computes `0/0 = NaN`; in `ℚ`
division by zero yields `0`.  Theorem `downsampleAudio_spec` below proves the
window is never empty on the reachable iterations, so the difference never
materialises.) -/
def dsLoop (buffer : List ℚ) (sampleRateRatio : ℚ) :
    (remaining position bufferOffset : ℕ) → List ℚ
  | 0, _, _ => []
  | remaining + 1, position, bufferOffset =>
    let nextBufferOffset := (jround (((position : ℚ) + 1) * sampleRateRatio)).toNat
    let acc := windowAcc buffer bufferOffset nextBufferOffset
    (acc.1 / (acc.2 : ℚ)) :: dsLoop buffer sampleRateRatio remaining (position + 1) nextBufferOffset

/-- `LexUtils.downsampleAudio(buffer, sourceSampleRate, targetSampleRate)`.

* `if (!buffer || !buffer.length) return;` — a `null`/`undefined` buffer is
  not representable by a `List`, so `!buffer` cannot fire; `!buffer.length`
  is the emptiness test.  Returns `undefined`.
* `if (sourceSampleRate === targetSampleRate) return buffer;`
* `if (sourceSampleRate < targetSampleRate) throw Error(...)`.
* otherwise run the averaging loop over
  `newLength = Math.round(bufferLength / sampleRateRatio)` positions. -/
def downsampleAudio (buffer : List ℚ) (sourceSampleRate targetSampleRate : ℚ) :
    JsOutcome (List ℚ) :=
  if buffer.length = 0 then
    .result none
  else if sourceSampleRate = targetSampleRate then
    .result (some buffer)
  else if sourceSampleRate < targetSampleRate then
    .thrown ("Input Sample rate " ++ toString sourceSampleRate ++
      " is less than target sample rate " ++ toString targetSampleRate ++ ".")
  else
    let bufferLength := buffer.length
    let sampleRateRatio := sourceSampleRate / targetSampleRate
    let newLength := (jround ((bufferLength : ℚ) / sampleRateRatio)).toNat
    .result (some (dsLoop buffer sampleRateRatio newLength 0 0))

/-- Start of output position `p`'s proportional window:
`Math.round(p * ratio)` (the value the loop variable `bufferOffset` holds when
the iteration for `p` begins). -/
def specWindowLo (ratio : ℚ) (p : ℕ) : ℕ := (jround ((p : ℚ) * ratio)).toNat

/-- Exclusive end of output position `p`'s proportional window, clipped to the
input length: `min (Math.round((p + 1) * ratio)) bufferLength`. -/
def specWindowHi (ratio : ℚ) (bufferLength p : ℕ) : ℕ :=
  min ((jround (((p : ℚ) + 1) * ratio)).toNat) bufferLength

/-- Arithmetic mean of the source samples in position `p`'s proportional
window. -/
def specMean (buffer : List ℚ) (ratio : ℚ) (p : ℕ) : ℚ :=
  let idxs := List.range' (specWindowLo ratio p)
    (specWindowHi ratio buffer.length p - specWindowLo ratio p)
  ((idxs.map (fun i => buffer.getD i 0)).sum) / (idxs.length : ℚ)

/-- Evaluation rule for `jround` at concrete rationals. -/
theorem jround_eq_of (x : ℚ) (n : ℤ) (h1 : (n : ℚ) ≤ x + 1 / 2)
    (h2 : x + 1 / 2 < (n : ℚ) + 1) : jround x = n := by
  unfold jround
  rw [Int.floor_eq_iff]
  · exact ⟨h1, h2⟩

example :
    downsampleAudio [1, 2, 3, 4] 4 2 = .result (some [3/2, 7/2]) := by
  have h2 : jround 2 = 2 := jround_eq_of _ 2 (by norm_num) (by norm_num)
  have h4 : jround 4 = 4 := jround_eq_of _ 4 (by norm_num) (by norm_num)
  norm_num [downsampleAudio, dsLoop, windowAcc, h2, h4, List.range',
    show Int.toNat 2 = 2 from rfl, show Int.toNat 4 = 4 from rfl]

example : downsampleAudio [] 2 4 = .result none := by decide

example : downsampleAudio ([] : List ℚ) 3 3 = .result none := by decide

/-- The loop variable `bufferOffset` always holds `Math.round(position * ratio)`
when the iteration for `position` begins, so the loop produces exactly the
proportional-window means, one per remaining position. -/
theorem dsLoop_eq_map (buffer : List ℚ) (ratio : ℚ) :
    ∀ remaining position : ℕ,
      dsLoop buffer ratio remaining position (specWindowLo ratio position) =
        (List.range' position remaining).map (specMean buffer ratio) := by
  intro remaining
  induction remaining with
  | zero => intro position; rfl
  | succ r ih =>
    intro position
    rw [List.range'_succ, List.map_cons]
    have hoff : (jround (((position : ℚ) + 1) * ratio)).toNat =
        specWindowLo ratio (position + 1) := by
      unfold specWindowLo
      push_cast
      rfl
    unfold dsLoop
    dsimp only
    congr 1
    rw [hoff, ih]

/-- `specWindowLo` at position `0` is `0`, the initial value of
`bufferOffset`. -/
theorem jround_zero : jround 0 = 0 := by
  unfold jround
  rw [Int.floor_eq_iff]
  norm_num

theorem specWindowLo_zero (ratio : ℚ) : specWindowLo ratio 0 = 0 := by
  unfold specWindowLo
  norm_num [jround_zero]

/-- On every position the loop actually visits, the proportional window is
nonempty (so the JavaScript average `accumulator / count` is never `0 / 0`). -/
theorem window_nonempty (L : ℕ) (ratio : ℚ) (hr : 1 < ratio) (p : ℕ)
    (hp : p < (jround ((L : ℚ) / ratio)).toNat) :
    specWindowLo ratio p < specWindowHi ratio L p := by
  have hr0 : (0 : ℚ) < ratio := lt_trans one_pos hr
  have hpN : ((p : ℤ) : ℚ) < (jround ((L : ℚ) / ratio) : ℚ) := by
    have := (Int.lt_toNat.mp hp)
    exact_mod_cast this
  have ha0 : 0 ≤ jround ((p : ℚ) * ratio) := by
    unfold jround
    rw [Int.le_floor]
    push_cast
    positivity
  have key : jround ((p : ℚ) * ratio) < (L : ℤ) := by
    unfold jround
    rw [Int.floor_lt]
    have h2 : (jround ((L : ℚ) / ratio) : ℚ) ≤ (L : ℚ) / ratio + 1 / 2 := by
      unfold jround
      exact Int.floor_le _
    have h1 : (p : ℚ) + 1 ≤ (L : ℚ) / ratio + 1 / 2 := by
      have : (p : ℚ) + 1 ≤ (jround ((L : ℚ) / ratio) : ℚ) := by
        have : (p : ℤ) + 1 ≤ jround ((L : ℚ) / ratio) := by exact_mod_cast hpN
        exact_mod_cast this
      linarith
    have hq : ((p : ℚ) + 1 / 2) * ratio ≤ ((L : ℚ) / ratio) * ratio := by
      have : (p : ℚ) + 1 / 2 ≤ (L : ℚ) / ratio := by linarith
      exact mul_le_mul_of_nonneg_right this (le_of_lt hr0)
    rw [div_mul_cancel₀ _ (ne_of_gt hr0)] at hq
    push_cast
    nlinarith
  have lt_b : jround ((p : ℚ) * ratio) < jround (((p : ℚ) + 1) * ratio) := by
    unfold jround
    have hle : (p : ℚ) * ratio + 1 / 2 + 1 ≤ ((p : ℚ) + 1) * ratio + 1 / 2 := by
      nlinarith
    calc ⌊(p : ℚ) * ratio + 1 / 2⌋ < ⌊(p : ℚ) * ratio + 1 / 2⌋ + 1 := lt_add_one _
      _ = ⌊(p : ℚ) * ratio + 1 / 2 + 1⌋ := (Int.floor_add_one _).symm
      _ ≤ ⌊((p : ℚ) + 1) * ratio + 1 / 2⌋ := Int.floor_le_floor hle
  unfold specWindowLo specWindowHi
  rw [lt_min_iff]
  omega

/-- C3: for every non-empty sample sequence with `sourceRate > targetRate`
(sample rates being positive), `downsampleAudio` returns a sequence of length
`round(sourceLength / ratio)` with `ratio = sourceRate / targetRate`, and each
output sample at position `p` is the arithmetic mean of the source samples in
its proportional window `[round(p * ratio), round((p + 1) * ratio))` clipped
to the input length (which is moreover never empty); in particular
`downsampleAudio([1,2,3,4], 4, 2) = [1.5, 3.5]`. -/
theorem c3_downsampleAudio_box_filter :
    (∀ (buffer : List ℚ) (sourceSampleRate targetSampleRate : ℚ),
      buffer ≠ [] → 0 < targetSampleRate → targetSampleRate < sourceSampleRate →
      ∃ out, downsampleAudio buffer sourceSampleRate targetSampleRate =
          .result (some out) ∧
        out.length =
          (jround ((buffer.length : ℚ) /
            (sourceSampleRate / targetSampleRate))).toNat ∧
        ∀ p, (hp : p < out.length) →
          specWindowLo (sourceSampleRate / targetSampleRate) p <
            specWindowHi (sourceSampleRate / targetSampleRate) buffer.length p ∧
          out[p] = specMean buffer (sourceSampleRate / targetSampleRate) p) ∧
    downsampleAudio [1, 2, 3, 4] 4 2 = .result (some [3/2, 7/2]) := by
  constructor
  · intro buffer src tgt hne htgt hlt
    have hlen : ¬(buffer.length = 0) := by
      simpa [List.length_eq_zero] using hne
    have hneq : ¬(src = tgt) := by
      intro h
      exact absurd h.symm (ne_of_lt hlt)
    have hnotlt : ¬(src < tgt) := not_lt_of_gt hlt
    have hratio : 1 < src / tgt := (one_lt_div htgt).mpr hlt
    unfold downsampleAudio
    rw [if_neg hlen, if_neg hneq, if_neg hnotlt]
    dsimp only
    have hloop := dsLoop_eq_map buffer (src / tgt)
      ((jround ((buffer.length : ℚ) / (src / tgt))).toNat) 0
    rw [specWindowLo_zero] at hloop
    rw [hloop]
    refine ⟨_, rfl, ?_, ?_⟩
    · simp [List.length_range']
    · intro p hp
      have hpN : p < (jround ((buffer.length : ℚ) / (src / tgt))).toNat := by
        simpa [List.length_range'] using hp
      refine ⟨window_nonempty buffer.length (src / tgt) hratio p hpN, ?_⟩
      simp [List.getElem_map, List.getElem_range']
  · have h2 : jround 2 = 2 := jround_eq_of _ 2 (by norm_num) (by norm_num)
    have h4 : jround 4 = 4 := jround_eq_of _ 4 (by norm_num) (by norm_num)
    norm_num [downsampleAudio, dsLoop, windowAcc, h2, h4, List.range',
      show Int.toNat 2 = 2 from rfl, show Int.toNat 4 = 4 from rfl]

/-- Witness for `c3_downsampleAudio_box_filter` at the concrete input
`[1,2,3,4]`, source rate `4`, target rate `2`. -/
theorem c3_downsampleAudio_box_filter_witness :
    ∃ out, downsampleAudio [1, 2, 3, 4] 4 2 = .result (some out) ∧
      out.length = (jround ((([1, 2, 3, 4] : List ℚ).length : ℚ) / (4 / 2))).toNat ∧
      ∀ p, (hp : p < out.length) →
        specWindowLo (4 / 2) p < specWindowHi (4 / 2) ([1, 2, 3, 4] : List ℚ).length p ∧
        out[p] = specMean [1, 2, 3, 4] (4 / 2) p :=
  c3_downsampleAudio_box_filter.1 [1, 2, 3, 4] 4 2 (by simp) (by norm_num)
    (by norm_num)

/-- C5 counterexample: the claim quantifies over *every* input sample
sequence, but on the empty sequence the `!buffer.length` guard fires first and
`downsampleAudio` returns `undefined` without raising any error, even though
`sourceRate (2) < targetRate (4)`. -/
theorem c5_empty_input_does_not_throw :
    downsampleAudio ([] : List ℚ) 2 4 = .result none ∧
      (∀ msg, downsampleAudio ([] : List ℚ) 2 4 ≠ .thrown msg) ∧
      (2 : ℚ) < 4 := by
  refine ⟨by decide, ?_, by norm_num⟩
  intro msg h
  rw [show downsampleAudio ([] : List ℚ) 2 4 = .result none from by decide] at h
  exact JsOutcome.noConfusion h

/-- C5 (amended): for every *non-empty* sample sequence, calling
`downsampleAudio` with `sourceRate < targetRate` throws an error and produces
no output (on the empty sequence the emptiness guard returns `undefined`
first, without raising). -/
theorem c5_upsampling_throws (buffer : List ℚ) (src tgt : ℚ)
    (hne : buffer ≠ []) (hlt : src < tgt) :
    downsampleAudio buffer src tgt =
      .thrown ("Input Sample rate " ++ toString src ++
        " is less than target sample rate " ++ toString tgt ++ ".") := by
  have hlen : ¬(buffer.length = 0) := by
    simpa [List.length_eq_zero] using hne
  have hneq : ¬(src = tgt) := ne_of_lt hlt
  unfold downsampleAudio
  rw [if_neg hlen, if_neg hneq, if_pos hlt]

/-- Witness for `c5_upsampling_throws` at `[1]`, source rate `2`, target
rate `4`. -/
theorem c5_upsampling_throws_witness :
    downsampleAudio [1] 2 4 =
      .thrown ("Input Sample rate " ++ toString (2 : ℚ) ++
        " is less than target sample rate " ++ toString (4 : ℚ) ++ ".") :=
  c5_upsampling_throws [1] 2 4 (by simp) (by norm_num)

/-- C6 counterexample: the claim quantifies over *every* sample sequence, but
on the empty sequence with equal rates `downsampleAudio` returns `undefined`
(`result none`), not the input unchanged (`result (some [])`). -/
theorem c6_empty_input_not_identity :
    downsampleAudio ([] : List ℚ) 3 3 = .result none ∧
      JsOutcome.result (none : Option (List ℚ)) ≠
        .result (some ([] : List ℚ)) := by
  exact ⟨by decide, by decide⟩

/-- C6 (amended): for every *non-empty* sample sequence, `downsampleAudio`
with equal source and target rates returns the input unchanged (identity fast
path); the empty sequence instead yields `undefined`. -/
theorem c6_equal_rates_identity (buffer : List ℚ) (rate : ℚ)
    (hne : buffer ≠ []) :
    downsampleAudio buffer rate rate = .result (some buffer) := by
  have hlen : ¬(buffer.length = 0) := by
    simpa [List.length_eq_zero] using hne
  unfold downsampleAudio
  rw [if_neg hlen, if_pos rfl]

/-- Witness for `c6_equal_rates_identity` at `[5, 7]`, rate `3`. -/
theorem c6_equal_rates_identity_witness :
    downsampleAudio [5, 7] 3 3 = .result (some [5, 7]) :=
  c6_equal_rates_identity [5, 7] 3 (by simp)

/-! ## `LexUtils.encodeWAV`

The `ArrayBuffer`/`DataView` pair is modelled as a `List ℕ` of byte values;
`new ArrayBuffer n` is `List.replicate n 0` (JavaScript zero-initialises),
and the `DataView` setters write little-endian at explicit offsets. -/

/-- `DataView.setUint8(offset, value)`. -/
def setUint8 (view : List ℕ) (offset value : ℕ) : List ℕ :=
  view.set offset (value % 256)

/-- `DataView.setUint16(offset, value, true)` (little-endian). -/
def setUint16 (view : List ℕ) (offset value : ℕ) : List ℕ :=
  (view.set offset (value % 256)).set (offset + 1) (value / 256 % 256)

/-- `DataView.setUint32(offset, value, true)` (little-endian). -/
def setUint32 (view : List ℕ) (offset value : ℕ) : List ℕ :=
  (((view.set offset (value % 256)).set (offset + 1) (value / 256 % 256)).set
    (offset + 2) (value / 65536 % 256)).set (offset + 3) (value / 16777216 % 256)

/-- `DataView.setInt16(offset, value, true)`: the number is converted by
`ToInt16` (truncate toward zero, take the value modulo `2^16`) and the two's
complement representative is stored little-endian. -/
def setInt16 (view : List ℕ) (offset : ℕ) (value : ℚ) : List ℕ :=
  let w := (jtrunc value % 65536).toNat
  (view.set offset (w % 256)).set (offset + 1) (w / 256)

/-- `_writeString(view, offset, string)`: write `string.charCodeAt(i)` at
`offset + i` for each character. -/
def writeString (view : List ℕ) (offset : ℕ) : List Char → List ℕ
  | [] => view
  | c :: rest => writeString (setUint8 view offset c.toNat) (offset + 1) rest

/-- `_floatTo16BitPCM(view, offset, input)`: clamp each sample to `[-1, 1]`,
scale negatives by `0x8000` and non-negatives by `0x7FFF`, and store the
results as little-endian 16-bit integers at consecutive even offsets. -/
def floatTo16BitPCM (view : List ℕ) (offset : ℕ) : List ℚ → List ℕ
  | [] => view
  | x :: rest =>
    let s := max (-1) (min 1 x)
    floatTo16BitPCM (setInt16 view offset (if s < 0 then s * 0x8000 else s * 0x7fff))
      (offset + 2) rest

/-- `LexUtils.encodeWAV(buffer, targetSampleRate)`.

The source's `if (!buffer) return;` guard only fires for a `null`/`undefined`
argument, which a `List` cannot represent (a `Float32Array`, even empty, is
truthy), so the function is modelled as total.  The source reads the target
sample rate out of `LEX_DEFAULTS.SampleRate`, which is the *string*
`"16000"`; every use below (`setUint32` payloads and the `* 2` product)
numerically coerces it, so the rate is modelled as the corresponding `ℕ`. -/
def encodeWAV (buffer : List ℚ) (targetSampleRate : ℕ) : List ℕ :=
  let encodedBuffer := List.replicate (44 + buffer.length * 2) 0
  let view := encodedBuffer
  let view := writeString view 0 "RIFF".data
  let view := setUint32 view 4 (32 + buffer.length * 2)
  let view := writeString view 8 "WAVE".data
  let view := writeString view 12 "fmt ".data
  let view := setUint32 view 16 16
  let view := setUint16 view 20 1
  let view := setUint16 view 22 1
  let view := setUint32 view 24 targetSampleRate
  let view := setUint32 view 28 (targetSampleRate * 2)
  let view := setUint16 view 32 2
  let view := setUint16 view 34 16
  let view := writeString view 36 "data".data
  let view := setUint32 view 40 (buffer.length * 2)
  floatTo16BitPCM view 44 buffer

/-- Little-endian bytes of a 16-bit value. -/
def u16le (value : ℕ) : List ℕ := [value % 256, value / 256 % 256]

/-- Little-endian bytes of a 32-bit value. -/
def u32le (value : ℕ) : List ℕ :=
  [value % 256, value / 256 % 256, value / 65536 % 256, value / 16777216 % 256]

/-- The signed 16-bit PCM code of one sample: clamp to `[-1, 1]`, scale
negatives by `0x8000` and non-negatives by `0x7FFF`, truncate toward zero. -/
def pcm16Signed (x : ℚ) : ℤ :=
  let s := max (-1) (min 1 x)
  jtrunc (if s < 0 then s * 0x8000 else s * 0x7fff)

/-- The two bytes (little-endian, two's complement) stored for one sample. -/
def pcm16Bytes (x : ℚ) : List ℕ :=
  let w := (pcm16Signed x % 65536).toNat
  [w % 256, w / 256]

/-- The full 44-byte WAV header for a payload of `payloadLen` bytes:
`"RIFF"`, RIFF chunk size `32 + payloadLen`, `"WAVE"`, `"fmt "`, fmt chunk
size 16, audio format 1 (PCM), channel count 1, sample rate, byte rate,
block align 2, bit depth 16, `"data"`, data chunk size `payloadLen` — all
multi-byte fields little-endian. -/
def wavHeader (payloadLen rate : ℕ) : List ℕ :=
  [82, 73, 70, 70] ++ u32le (32 + payloadLen) ++
  [87, 65, 86, 69] ++ [102, 109, 116, 32] ++
  u32le 16 ++ u16le 1 ++ u16le 1 ++ u32le rate ++ u32le (rate * 2) ++
  u16le 2 ++ u16le 16 ++
  [100, 97, 116, 97] ++ u32le payloadLen

theorem length_setUint8 (v : List ℕ) (o x : ℕ) :
    (setUint8 v o x).length = v.length := by
  simp [setUint8]

theorem length_setUint16 (v : List ℕ) (o x : ℕ) :
    (setUint16 v o x).length = v.length := by
  simp [setUint16]

theorem length_setUint32 (v : List ℕ) (o x : ℕ) :
    (setUint32 v o x).length = v.length := by
  simp [setUint32]

theorem length_writeString :
    ∀ (cs : List Char) (v : List ℕ) (o : ℕ),
      (writeString v o cs).length = v.length := by
  intro cs
  induction cs with
  | nil => intro v o; rfl
  | cons c rest ih =>
    intro v o
    rw [writeString, ih]
    simp [setUint8]

theorem setUint8_append (v z : List ℕ) (o x : ℕ) (h : o < v.length) :
    setUint8 (v ++ z) o x = setUint8 v o x ++ z := by
  simp [setUint8, List.set_append_left _ _ h]

theorem setUint16_append (v z : List ℕ) (o x : ℕ) (h : o + 1 < v.length) :
    setUint16 (v ++ z) o x = setUint16 v o x ++ z := by
  unfold setUint16
  rw [List.set_append_left _ _ (by omega), List.set_append_left]
  simpa using h

theorem setUint32_append (v z : List ℕ) (o x : ℕ) (h : o + 3 < v.length) :
    setUint32 (v ++ z) o x = setUint32 v o x ++ z := by
  unfold setUint32
  rw [List.set_append_left _ _ (by omega), List.set_append_left _ _ (by simpa using (by omega : o + 1 < v.length)),
    List.set_append_left _ _ (by simpa using (by omega : o + 2 < v.length)),
    List.set_append_left _ _ (by simpa using h)]

theorem writeString_append :
    ∀ (cs : List Char) (v z : List ℕ) (o : ℕ), o + cs.length ≤ v.length →
      writeString (v ++ z) o cs = writeString v o cs ++ z := by
  intro cs
  induction cs with
  | nil => intro v z o _; rfl
  | cons c rest ih =>
    intro v z o h
    rw [writeString, writeString, setUint8_append _ _ _ _ (by simp at h; omega),
      ih _ _ _ (by simp [setUint8] at h ⊢; omega)]

/-- The PCM-writing loop on a buffer laid out as `written prefix ++ zero
payload area` writes exactly the per-sample byte pairs after the prefix. -/
theorem floatTo16BitPCM_eq :
    ∀ (input : List ℚ) (pre : List ℕ),
      floatTo16BitPCM (pre ++ List.replicate (input.length * 2) 0) pre.length input =
        pre ++ input.flatMap pcm16Bytes := by
  intro input
  induction input with
  | nil => intro pre; simp [floatTo16BitPCM]
  | cons x rest ih =>
    intro pre
    have hrep : List.replicate ((x :: rest).length * 2) (0 : ℕ) =
        0 :: 0 :: List.replicate (rest.length * 2) 0 := by
      simp [List.length_cons]
      rw [show (rest.length + 1) * 2 = rest.length * 2 + 1 + 1 by ring]
      simp [List.replicate]
    rw [hrep, floatTo16BitPCM]
    unfold setInt16
    dsimp only
    rw [List.set_append_right _ _ (le_refl _), Nat.sub_self,
      List.set_append_right _ _ (by omega), Nat.add_sub_cancel_left]
    dsimp only [List.set]
    rw [show jtrunc (if max (-1) (min 1 x) < 0 then max (-1) (min 1 x) * 32768
        else max (-1) (min 1 x) * 32767) = pcm16Signed x from rfl]
    have hsplit :
        pre ++ (pcm16Signed x % 65536).toNat % 256 ::
            (pcm16Signed x % 65536).toNat / 256 ::
            List.replicate (rest.length * 2) 0 =
          (pre ++ pcm16Bytes x) ++ List.replicate (rest.length * 2) 0 := by
      simp [pcm16Bytes, pcm16Signed]
    rw [hsplit, show pre.length + 2 = (pre ++ pcm16Bytes x).length by
      simp [pcm16Bytes], ih]
    simp [List.flatMap_cons]

/-- Variant of `floatTo16BitPCM_eq` taking the offset as an equal number. -/
theorem floatTo16BitPCM_eq_of_len (input : List ℚ) (pre : List ℕ) (n : ℕ)
    (hn : pre.length = n) :
    floatTo16BitPCM (pre ++ List.replicate (input.length * 2) 0) n input =
      pre ++ input.flatMap pcm16Bytes := by
  subst hn
  exact floatTo16BitPCM_eq input pre

/-- Computing the header writes on the zero-initialised 44-byte region. -/
theorem headerComputation (L2 rate : ℕ) :
    setUint32 (writeString (setUint16 (setUint16 (setUint32 (setUint32
      (setUint16 (setUint16 (setUint32 (writeString (writeString (setUint32
        (writeString (List.replicate 44 0) 0 "RIFF".data)
        4 (32 + L2)) 8 "WAVE".data) 12 "fmt ".data) 16 16)
        20 1) 22 1) 24 rate) 28 (rate * 2)) 32 2) 34 16) 36 "data".data)
      40 L2 = wavHeader L2 rate := by
  have h1 : writeString (List.replicate 44 (0:ℕ)) 0 "RIFF".data =
      [82, 73, 70, 70, 0, 0, 0, 0, 0, 0, 0, 0, 0, 0, 0, 0, 0, 0, 0, 0, 0, 0, 0, 0, 0, 0, 0, 0, 0, 0, 0, 0, 0, 0, 0, 0, 0, 0, 0, 0, 0, 0, 0, 0] := by
    simp [writeString, setUint8, List.replicate, List.set]
  have h2 : setUint32 [82, 73, 70, 70, 0, 0, 0, 0, 0, 0, 0, 0, 0, 0, 0, 0, 0, 0, 0, 0, 0, 0, 0, 0, 0, 0, 0, 0, 0, 0, 0, 0, 0, 0, 0, 0, 0, 0, 0, 0, 0, 0, 0, 0] 4 (32 + L2) =
      [82, 73, 70, 70, (32 + L2) % 256, (32 + L2) / 256 % 256, (32 + L2) / 65536 % 256, (32 + L2) / 16777216 % 256, 0, 0, 0, 0, 0, 0, 0, 0, 0, 0, 0, 0, 0, 0, 0, 0, 0, 0, 0, 0, 0, 0, 0, 0, 0, 0, 0, 0, 0, 0, 0, 0, 0, 0, 0, 0] := by
    simp [setUint32, List.set]
  have h3 : writeString [82, 73, 70, 70, (32 + L2) % 256, (32 + L2) / 256 % 256, (32 + L2) / 65536 % 256, (32 + L2) / 16777216 % 256, 0, 0, 0, 0, 0, 0, 0, 0, 0, 0, 0, 0, 0, 0, 0, 0, 0, 0, 0, 0, 0, 0, 0, 0, 0, 0, 0, 0, 0, 0, 0, 0, 0, 0, 0, 0] 8 "WAVE".data =
      [82, 73, 70, 70, (32 + L2) % 256, (32 + L2) / 256 % 256, (32 + L2) / 65536 % 256, (32 + L2) / 16777216 % 256, 87, 65, 86, 69, 0, 0, 0, 0, 0, 0, 0, 0, 0, 0, 0, 0, 0, 0, 0, 0, 0, 0, 0, 0, 0, 0, 0, 0, 0, 0, 0, 0, 0, 0, 0, 0] := by
    simp [writeString, setUint8, List.replicate, List.set]
  have h4 : writeString [82, 73, 70, 70, (32 + L2) % 256, (32 + L2) / 256 % 256, (32 + L2) / 65536 % 256, (32 + L2) / 16777216 % 256, 87, 65, 86, 69, 0, 0, 0, 0, 0, 0, 0, 0, 0, 0, 0, 0, 0, 0, 0, 0, 0, 0, 0, 0, 0, 0, 0, 0, 0, 0, 0, 0, 0, 0, 0, 0] 12 "fmt ".data =
      [82, 73, 70, 70, (32 + L2) % 256, (32 + L2) / 256 % 256, (32 + L2) / 65536 % 256, (32 + L2) / 16777216 % 256, 87, 65, 86, 69, 102, 109, 116, 32, 0, 0, 0, 0, 0, 0, 0, 0, 0, 0, 0, 0, 0, 0, 0, 0, 0, 0, 0, 0, 0, 0, 0, 0, 0, 0, 0, 0] := by
    simp [writeString, setUint8, List.replicate, List.set]
  have h5 : setUint32 [82, 73, 70, 70, (32 + L2) % 256, (32 + L2) / 256 % 256, (32 + L2) / 65536 % 256, (32 + L2) / 16777216 % 256, 87, 65, 86, 69, 102, 109, 116, 32, 0, 0, 0, 0, 0, 0, 0, 0, 0, 0, 0, 0, 0, 0, 0, 0, 0, 0, 0, 0, 0, 0, 0, 0, 0, 0, 0, 0] 16 16 =
      [82, 73, 70, 70, (32 + L2) % 256, (32 + L2) / 256 % 256, (32 + L2) / 65536 % 256, (32 + L2) / 16777216 % 256, 87, 65, 86, 69, 102, 109, 116, 32, 16, 0, 0, 0, 0, 0, 0, 0, 0, 0, 0, 0, 0, 0, 0, 0, 0, 0, 0, 0, 0, 0, 0, 0, 0, 0, 0, 0] := by
    simp [setUint32, List.set]
  have h6 : setUint16 [82, 73, 70, 70, (32 + L2) % 256, (32 + L2) / 256 % 256, (32 + L2) / 65536 % 256, (32 + L2) / 16777216 % 256, 87, 65, 86, 69, 102, 109, 116, 32, 16, 0, 0, 0, 0, 0, 0, 0, 0, 0, 0, 0, 0, 0, 0, 0, 0, 0, 0, 0, 0, 0, 0, 0, 0, 0, 0, 0] 20 1 =
      [82, 73, 70, 70, (32 + L2) % 256, (32 + L2) / 256 % 256, (32 + L2) / 65536 % 256, (32 + L2) / 16777216 % 256, 87, 65, 86, 69, 102, 109, 116, 32, 16, 0, 0, 0, 1, 0, 0, 0, 0, 0, 0, 0, 0, 0, 0, 0, 0, 0, 0, 0, 0, 0, 0, 0, 0, 0, 0, 0] := by
    simp [setUint16, List.set]
  have h7 : setUint16 [82, 73, 70, 70, (32 + L2) % 256, (32 + L2) / 256 % 256, (32 + L2) / 65536 % 256, (32 + L2) / 16777216 % 256, 87, 65, 86, 69, 102, 109, 116, 32, 16, 0, 0, 0, 1, 0, 0, 0, 0, 0, 0, 0, 0, 0, 0, 0, 0, 0, 0, 0, 0, 0, 0, 0, 0, 0, 0, 0] 22 1 =
      [82, 73, 70, 70, (32 + L2) % 256, (32 + L2) / 256 % 256, (32 + L2) / 65536 % 256, (32 + L2) / 16777216 % 256, 87, 65, 86, 69, 102, 109, 116, 32, 16, 0, 0, 0, 1, 0, 1, 0, 0, 0, 0, 0, 0, 0, 0, 0, 0, 0, 0, 0, 0, 0, 0, 0, 0, 0, 0, 0] := by
    simp [setUint16, List.set]
  have h8 : setUint32 [82, 73, 70, 70, (32 + L2) % 256, (32 + L2) / 256 % 256, (32 + L2) / 65536 % 256, (32 + L2) / 16777216 % 256, 87, 65, 86, 69, 102, 109, 116, 32, 16, 0, 0, 0, 1, 0, 1, 0, 0, 0, 0, 0, 0, 0, 0, 0, 0, 0, 0, 0, 0, 0, 0, 0, 0, 0, 0, 0] 24 rate =
      [82, 73, 70, 70, (32 + L2) % 256, (32 + L2) / 256 % 256, (32 + L2) / 65536 % 256, (32 + L2) / 16777216 % 256, 87, 65, 86, 69, 102, 109, 116, 32, 16, 0, 0, 0, 1, 0, 1, 0, rate % 256, rate / 256 % 256, rate / 65536 % 256, rate / 16777216 % 256, 0, 0, 0, 0, 0, 0, 0, 0, 0, 0, 0, 0, 0, 0, 0, 0] := by
    simp [setUint32, List.set]
  have h9 : setUint32 [82, 73, 70, 70, (32 + L2) % 256, (32 + L2) / 256 % 256, (32 + L2) / 65536 % 256, (32 + L2) / 16777216 % 256, 87, 65, 86, 69, 102, 109, 116, 32, 16, 0, 0, 0, 1, 0, 1, 0, rate % 256, rate / 256 % 256, rate / 65536 % 256, rate / 16777216 % 256, 0, 0, 0, 0, 0, 0, 0, 0, 0, 0, 0, 0, 0, 0, 0, 0] 28 (rate * 2) =
      [82, 73, 70, 70, (32 + L2) % 256, (32 + L2) / 256 % 256, (32 + L2) / 65536 % 256, (32 + L2) / 16777216 % 256, 87, 65, 86, 69, 102, 109, 116, 32, 16, 0, 0, 0, 1, 0, 1, 0, rate % 256, rate / 256 % 256, rate / 65536 % 256, rate / 16777216 % 256, rate * 2 % 256, rate * 2 / 256 % 256, rate * 2 / 65536 % 256, rate * 2 / 16777216 % 256, 0, 0, 0, 0, 0, 0, 0, 0, 0, 0, 0, 0] := by
    simp [setUint32, List.set]
  have h10 : setUint16 [82, 73, 70, 70, (32 + L2) % 256, (32 + L2) / 256 % 256, (32 + L2) / 65536 % 256, (32 + L2) / 16777216 % 256, 87, 65, 86, 69, 102, 109, 116, 32, 16, 0, 0, 0, 1, 0, 1, 0, rate % 256, rate / 256 % 256, rate / 65536 % 256, rate / 16777216 % 256, rate * 2 % 256, rate * 2 / 256 % 256, rate * 2 / 65536 % 256, rate * 2 / 16777216 % 256, 0, 0, 0, 0, 0, 0, 0, 0, 0, 0, 0, 0] 32 2 =
      [82, 73, 70, 70, (32 + L2) % 256, (32 + L2) / 256 % 256, (32 + L2) / 65536 % 256, (32 + L2) / 16777216 % 256, 87, 65, 86, 69, 102, 109, 116, 32, 16, 0, 0, 0, 1, 0, 1, 0, rate % 256, rate / 256 % 256, rate / 65536 % 256, rate / 16777216 % 256, rate * 2 % 256, rate * 2 / 256 % 256, rate * 2 / 65536 % 256, rate * 2 / 16777216 % 256, 2, 0, 0, 0, 0, 0, 0, 0, 0, 0, 0, 0] := by
    simp [setUint16, List.set]
  have h11 : setUint16 [82, 73, 70, 70, (32 + L2) % 256, (32 + L2) / 256 % 256, (32 + L2) / 65536 % 256, (32 + L2) / 16777216 % 256, 87, 65, 86, 69, 102, 109, 116, 32, 16, 0, 0, 0, 1, 0, 1, 0, rate % 256, rate / 256 % 256, rate / 65536 % 256, rate / 16777216 % 256, rate * 2 % 256, rate * 2 / 256 % 256, rate * 2 / 65536 % 256, rate * 2 / 16777216 % 256, 2, 0, 0, 0, 0, 0, 0, 0, 0, 0, 0, 0] 34 16 =
      [82, 73, 70, 70, (32 + L2) % 256, (32 + L2) / 256 % 256, (32 + L2) / 65536 % 256, (32 + L2) / 16777216 % 256, 87, 65, 86, 69, 102, 109, 116, 32, 16, 0, 0, 0, 1, 0, 1, 0, rate % 256, rate / 256 % 256, rate / 65536 % 256, rate / 16777216 % 256, rate * 2 % 256, rate * 2 / 256 % 256, rate * 2 / 65536 % 256, rate * 2 / 16777216 % 256, 2, 0, 16, 0, 0, 0, 0, 0, 0, 0, 0, 0] := by
    simp [setUint16, List.set]
  have h12 : writeString [82, 73, 70, 70, (32 + L2) % 256, (32 + L2) / 256 % 256, (32 + L2) / 65536 % 256, (32 + L2) / 16777216 % 256, 87, 65, 86, 69, 102, 109, 116, 32, 16, 0, 0, 0, 1, 0, 1, 0, rate % 256, rate / 256 % 256, rate / 65536 % 256, rate / 16777216 % 256, rate * 2 % 256, rate * 2 / 256 % 256, rate * 2 / 65536 % 256, rate * 2 / 16777216 % 256, 2, 0, 16, 0, 0, 0, 0, 0, 0, 0, 0, 0] 36 "data".data =
      [82, 73, 70, 70, (32 + L2) % 256, (32 + L2) / 256 % 256, (32 + L2) / 65536 % 256, (32 + L2) / 16777216 % 256, 87, 65, 86, 69, 102, 109, 116, 32, 16, 0, 0, 0, 1, 0, 1, 0, rate % 256, rate / 256 % 256, rate / 65536 % 256, rate / 16777216 % 256, rate * 2 % 256, rate * 2 / 256 % 256, rate * 2 / 65536 % 256, rate * 2 / 16777216 % 256, 2, 0, 16, 0, 100, 97, 116, 97, 0, 0, 0, 0] := by
    simp [writeString, setUint8, List.replicate, List.set]
  have h13 : setUint32 [82, 73, 70, 70, (32 + L2) % 256, (32 + L2) / 256 % 256, (32 + L2) / 65536 % 256, (32 + L2) / 16777216 % 256, 87, 65, 86, 69, 102, 109, 116, 32, 16, 0, 0, 0, 1, 0, 1, 0, rate % 256, rate / 256 % 256, rate / 65536 % 256, rate / 16777216 % 256, rate * 2 % 256, rate * 2 / 256 % 256, rate * 2 / 65536 % 256, rate * 2 / 16777216 % 256, 2, 0, 16, 0, 100, 97, 116, 97, 0, 0, 0, 0] 40 L2 =
      [82, 73, 70, 70, (32 + L2) % 256, (32 + L2) / 256 % 256, (32 + L2) / 65536 % 256, (32 + L2) / 16777216 % 256, 87, 65, 86, 69, 102, 109, 116, 32, 16, 0, 0, 0, 1, 0, 1, 0, rate % 256, rate / 256 % 256, rate / 65536 % 256, rate / 16777216 % 256, rate * 2 % 256, rate * 2 / 256 % 256, rate * 2 / 65536 % 256, rate * 2 / 16777216 % 256, 2, 0, 16, 0, 100, 97, 116, 97, L2 % 256, L2 / 256 % 256, L2 / 65536 % 256, L2 / 16777216 % 256] := by
    simp [setUint32, List.set]
  rw [h1, h2, h3, h4, h5, h6, h7, h8, h9, h10, h11, h12, h13]
  simp [wavHeader, u32le, u16le]

/-- Structural characterisation of `encodeWAV`: the 44-byte little-endian
header followed by the 2-bytes-per-sample PCM payload. -/
theorem encodeWAV_eq (buffer : List ℚ) (rate : ℕ) :
    encodeWAV buffer rate =
      wavHeader (buffer.length * 2) rate ++ buffer.flatMap pcm16Bytes := by
  unfold encodeWAV
  dsimp only
  rw [List.replicate_add]
  rw [writeString_append _ _ _ _ (by simp),
    setUint32_append _ _ _ _ (by simp [length_writeString]),
    writeString_append _ _ _ _ (by simp [length_writeString, length_setUint32]),
    writeString_append _ _ _ _ (by simp [length_writeString, length_setUint32]),
    setUint32_append _ _ _ _ (by simp [length_writeString, length_setUint32]),
    setUint16_append _ _ _ _ (by simp [length_writeString, length_setUint32]),
    setUint16_append _ _ _ _ (by simp [length_writeString, length_setUint32, length_setUint16]),
    setUint32_append _ _ _ _ (by simp [length_writeString, length_setUint32, length_setUint16]),
    setUint32_append _ _ _ _ (by simp [length_writeString, length_setUint32, length_setUint16]),
    setUint16_append _ _ _ _ (by simp [length_writeString, length_setUint32, length_setUint16]),
    setUint16_append _ _ _ _ (by simp [length_writeString, length_setUint32, length_setUint16]),
    writeString_append _ _ _ _ (by simp [length_writeString, length_setUint32, length_setUint16]),
    setUint32_append _ _ _ _ (by simp [length_writeString, length_setUint32, length_setUint16])]
  refine Eq.trans (floatTo16BitPCM_eq_of_len buffer _ 44 ?_) ?_
  · rw [headerComputation]
    simp [wavHeader, u32le, u16le]
  · rw [headerComputation]

/-- Evaluation rule for `jtrunc` at concrete non-negative rationals. -/
theorem jtrunc_eq_of_nonneg (x : ℚ) (n : ℤ) (h0 : ¬x < 0) (h1 : (n : ℚ) ≤ x)
    (h2 : x < (n : ℚ) + 1) : jtrunc x = n := by
  unfold jtrunc
  rw [if_neg h0, Int.floor_eq_iff]
  exact ⟨h1, h2⟩

/-- Evaluation rule for `jtrunc` at concrete negative rationals. -/
theorem jtrunc_eq_of_neg (x : ℚ) (n : ℤ) (h0 : x < 0) (h1 : (n : ℚ) - 1 < x)
    (h2 : x ≤ (n : ℚ)) : jtrunc x = n := by
  unfold jtrunc
  rw [if_pos h0, Int.ceil_eq_iff]
  exact ⟨h1, h2⟩

theorem pcm16Signed_zero : pcm16Signed 0 = 0 := by
  have hs : max (-1) (min 1 (0 : ℚ)) = 0 := by norm_num
  unfold pcm16Signed
  rw [hs]
  norm_num [jtrunc_eq_of_nonneg 0 0 (by norm_num) (by norm_num) (by norm_num)]

theorem pcm16Signed_half : pcm16Signed (1 / 2) = 16383 := by
  have hs : max (-1) (min 1 (1 / 2 : ℚ)) = 1 / 2 := by norm_num
  unfold pcm16Signed
  rw [hs]
  norm_num [jtrunc_eq_of_nonneg (32767 / 2) 16383 (by norm_num) (by norm_num)
    (by norm_num)]

theorem pcm16Signed_neg_half : pcm16Signed (-(1 / 2)) = -16384 := by
  have hs : max (-1) (min 1 (-(1 / 2) : ℚ)) = -(1 / 2) := by norm_num
  unfold pcm16Signed
  rw [hs]
  norm_num [jtrunc_eq_of_neg (-16384) (-16384) (by norm_num) (by norm_num)
    (by norm_num)]

theorem pcm16Signed_one : pcm16Signed 1 = 32767 := by
  have hs : max (-1) (min 1 (1 : ℚ)) = 1 := by norm_num
  unfold pcm16Signed
  rw [hs]
  norm_num [jtrunc_eq_of_nonneg 32767 32767 (by norm_num) (by norm_num)
    (by norm_num)]

theorem pcm16Signed_neg_one : pcm16Signed (-1) = -32768 := by
  have hs : max (-1) (min 1 (-1 : ℚ)) = -1 := by norm_num
  unfold pcm16Signed
  rw [hs]
  norm_num [jtrunc_eq_of_neg (-32768) (-32768) (by norm_num) (by norm_num)
    (by norm_num)]

theorem length_flatMap_pcm16 (buffer : List ℚ) :
    (buffer.flatMap pcm16Bytes).length = buffer.length * 2 := by
  induction buffer with
  | nil => rfl
  | cons x rest ih =>
    rw [List.flatMap_cons, List.length_append, ih]
    simp [pcm16Bytes]
    ring

theorem length_wavHeader (payloadLen rate : ℕ) :
    (wavHeader payloadLen rate).length = 44 := by
  simp [wavHeader, u32le, u16le]

/-- C4: for every sample sequence and target sample rate, `encodeWAV`
produces a buffer of exactly 44 header bytes plus 2 bytes per sample, with
little-endian multi-byte fields, channel count 1, bit depth 16, chunk sizes
computed from the payload length (all recorded in `wavHeader`), and each
float sample clamped to `[-1, 1]` then scaled to a signed 16-bit integer
(negatives by `0x8000`, non-negatives by `0x7FFF`, per `pcm16Signed` /
`pcm16Bytes`); in particular encoding `[0.0, 0.5, -0.5, 1.0, -1.0]` yields a
declared RIFF chunk size of `32 + 10` and PCM payload values
`[0, 16383, -16384, 32767, -32768]`. -/
theorem c4_encodeWAV_layout :
    (∀ (buffer : List ℚ) (rate : ℕ),
      encodeWAV buffer rate =
        wavHeader (buffer.length * 2) rate ++ buffer.flatMap pcm16Bytes ∧
      (encodeWAV buffer rate).length = 44 + buffer.length * 2) ∧
    (((encodeWAV [0, 1 / 2, -(1 / 2), 1, -1] 16000).drop 4).take 4 =
        [42, 0, 0, 0] ∧
      (42 : ℕ) = 32 + 10 ∧
      ([0, 1 / 2, -(1 / 2), 1, -1] : List ℚ).map pcm16Signed =
        [0, 16383, -16384, 32767, -32768] ∧
      (encodeWAV [0, 1 / 2, -(1 / 2), 1, -1] 16000).drop 44 =
        [0, 0, 255, 63, 0, 192, 255, 127, 0, 128]) := by
  have hmap : ([0, 1 / 2, -(1 / 2), 1, -1] : List ℚ).map pcm16Signed =
      [0, 16383, -16384, 32767, -32768] := by
    simp only [List.map_cons, List.map_nil, pcm16Signed_zero, pcm16Signed_half,
      pcm16Signed_neg_half, pcm16Signed_one, pcm16Signed_neg_one]
  refine ⟨fun buffer rate => ⟨encodeWAV_eq buffer rate, ?_⟩, ?_, rfl, hmap, ?_⟩
  · rw [encodeWAV_eq, List.length_append, length_wavHeader,
      length_flatMap_pcm16]
  · rw [encodeWAV_eq]
    norm_num [wavHeader, u32le, u16le]
  · rw [encodeWAV_eq, List.drop_left' (length_wavHeader _ _)]
    simp only [List.flatMap_cons, List.flatMap_nil, pcm16Bytes,
      pcm16Signed_zero, pcm16Signed_half, pcm16Signed_neg_half,
      pcm16Signed_one, pcm16Signed_neg_one, List.append_nil]
    decide

/-! ## `decodeResponse` / `decodeAndUnzipJsonString`

The external helpers `atob` (base64 decode), `pako.inflate` (decompression)
and `JSON.parse` are black boxes to this code; they enter the model as
function parameters, with `J` the abstract type of parsed JSON values. -/

/-- A JavaScript value held in a Lex response field: `undefined`, an
(encoded) string, or a parsed JSON structure of abstract type `J`. -/
inductive JsVal (J : Type) where
  | undef : JsVal J
  | str : String → JsVal J
  | parsed : J → JsVal J
deriving DecidableEq

/-- JavaScript truthiness of a field value: `undefined` and the empty string
are falsy; a non-empty string and any object are truthy. -/
def jsTruthy {J : Type} : JsVal J → Bool
  | .undef => false
  | .str s => !s.isEmpty
  | .parsed _ => true

/-- A Lex `recognizeUtterance` response object: the three fields the decoder
touches, plus the remaining fields, which the `{ ...lexResponse }` spread
copies verbatim.  A service response carries only `undef`/`str` values in the
three fields; a decoded response may carry `parsed` values. -/
structure LexResponse (J : Type) where
  sessionState : JsVal J
  inputTranscript : JsVal J
  messages : JsVal J
  extra : List (String × String)
deriving DecidableEq

/-- `decodeAndUnzipJsonString(encodedString)`:
`if (encodedString === undefined) return undefined;` then base64-decode
(`atob`), turn the binary string into a byte array
(`Uint8Array.from(data, (c) => c.charCodeAt(0))`), decompress
(`pako.inflate(..., { to: "string" })`) and `JSON.parse` the result.
(The `parsed` case cannot arise: every call site passes a field of a raw
service response, which is absent or a string.) -/
def decodeAndUnzipJsonString {J : Type} (atob : String → String)
    (inflate : List ℕ → String) (parse : String → J) : JsVal J → JsVal J
  | .undef => .undef
  | .str encodedString =>
    let data := atob encodedString
    let gzipedDataArray := data.data.map Char.toNat
    let unzippedJsonString := inflate gzipedDataArray
    .parsed (parse unzippedJsonString)
  | .parsed j => .parsed j

/-- `decodeResponse(lexResponse)` as a pure value transformation: spread-copy
the input, always decode `sessionState`, and decode `inputTranscript` and
`messages` only when truthy. -/
def decodeResponse {J : Type} (atob : String → String)
    (inflate : List ℕ → String) (parse : String → J)
    (lexResponse : LexResponse J) : LexResponse J :=
  let decodedResponse := lexResponse
  let decodedResponse := { decodedResponse with
    sessionState :=
      decodeAndUnzipJsonString atob inflate parse lexResponse.sessionState }
  let decodedResponse :=
    if jsTruthy lexResponse.inputTranscript then
      { decodedResponse with
        inputTranscript :=
          decodeAndUnzipJsonString atob inflate parse lexResponse.inputTranscript }
    else decodedResponse
  let decodedResponse :=
    if jsTruthy lexResponse.messages then
      { decodedResponse with
        messages :=
          decodeAndUnzipJsonString atob inflate parse lexResponse.messages }
    else decodedResponse
  decodedResponse

/-- A minimal JavaScript heap of response objects, to express allocation and
(absence of) mutation: objects are addressed by references, and `next` is the
next fresh address. -/
structure Heap (J : Type) where
  next : ℕ
  objs : ℕ → Option (LexResponse J)

/-- Allocate a fresh object (what the `{ ...lexResponse }` spread does). -/
def Heap.alloc {J : Type} (h : Heap J) (obj : LexResponse J) : Heap J × ℕ :=
  ({ next := h.next + 1,
     objs := fun r => if r = h.next then some obj else h.objs r }, h.next)

/-- Overwrite fields of the object at reference `r` (a property
assignment). -/
def Heap.update {J : Type} (h : Heap J) (r : ℕ)
    (f : LexResponse J → LexResponse J) : Heap J :=
  { h with objs := fun q => if q = r then (h.objs q).map f else h.objs q }

/-- `decodeResponse` at the heap level, performing the same steps as the
source: read the input object, allocate the spread copy, then assign the
decoded fields on the copy only. -/
def decodeResponseH {J : Type} (atob : String → String)
    (inflate : List ℕ → String) (parse : String → J)
    (h : Heap J) (lexRef : ℕ) : Heap J × ℕ :=
  match h.objs lexRef with
  | none => (h, lexRef)
  | some lexResponse =>
    let alloc := h.alloc lexResponse
    let h := alloc.1
    let dRef := alloc.2
    let h := h.update dRef (fun d => { d with
      sessionState :=
        decodeAndUnzipJsonString atob inflate parse lexResponse.sessionState })
    let h :=
      if jsTruthy lexResponse.inputTranscript then
        h.update dRef (fun d => { d with
          inputTranscript :=
            decodeAndUnzipJsonString atob inflate parse lexResponse.inputTranscript })
      else h
    let h :=
      if jsTruthy lexResponse.messages then
        h.update dRef (fun d => { d with
          messages :=
            decodeAndUnzipJsonString atob inflate parse lexResponse.messages })
      else h
    (h, dRef)

/-- The heap-level decoder allocates one fresh object holding exactly the
pure `decodeResponse` of the input, and leaves every existing object — the
input included — untouched. -/
theorem decodeResponseH_eq {J : Type} (atob : String → String)
    (inflate : List ℕ → String) (parse : String → J)
    (h : Heap J) (lexRef : ℕ) (raw : LexResponse J)
    (hraw : h.objs lexRef = some raw) :
    decodeResponseH atob inflate parse h lexRef =
      ({ next := h.next + 1,
         objs := fun r =>
           if r = h.next then some (decodeResponse atob inflate parse raw)
           else h.objs r }, h.next) := by
  unfold decodeResponseH
  rw [hraw]
  unfold Heap.alloc Heap.update decodeResponse
  dsimp only
  cases hit : jsTruthy raw.inputTranscript <;>
    cases hm : jsTruthy raw.messages <;>
      simp only [hit, hm, Bool.false_eq_true, if_false, if_true] <;>
        refine Prod.ext ?_ rfl <;>
          · refine congrArg₂ Heap.mk rfl ?_
            funext q
            by_cases hq : q = h.next <;> simp [hq]

/-- C7 counterexample: a *present* optional field is not always replaced by
the base64-decode → decompress → parse pipeline.  With `inputTranscript`
present but equal to the empty string (which is falsy in JavaScript), the
guard `if (lexResponse.inputTranscript)` skips the decode, and the output
keeps the raw `""` — different from what the pipeline would produce.
(Instantiation: `J := String`, `atob := id`, `inflate := fun _ => "null"`,
`parse := id`.) -/
theorem c7_present_empty_field_not_replaced :
    (decodeResponse (J := String) (fun s => s) (fun _ => "null") (fun s => s)
        ⟨.str "abc", .str "", .undef, []⟩).inputTranscript = .str "" ∧
      decodeAndUnzipJsonString (J := String) (fun s => s) (fun _ => "null")
        (fun s => s) (.str "") = .parsed "null" ∧
      (JsVal.str "" : JsVal String) ≠ .parsed "null" := by
  refine ⟨rfl, rfl, ?_⟩
  intro hcontra
  exact JsVal.noConfusion hcontra

/-- C7 (amended): `decodeResponse` allocates and returns a new object and
never mutates its input; an optional field (`inputTranscript`, `messages`)
absent from the input remains absent from the output; a present *non-empty*
field is replaced by base64-decode → decompress → parse of its encoded value
(`sessionState` whenever present, the optional fields when truthy), while a
present empty-string optional field is left unchanged (JavaScript truthiness
guard); all other fields are copied verbatim. -/
theorem c7_decodeResponse_frame (J : Type) (atob : String → String)
    (inflate : List ℕ → String) (parse : String → J)
    (h : Heap J) (lexRef : ℕ) (raw : LexResponse J)
    (hraw : h.objs lexRef = some raw) (hvalid : lexRef < h.next) :
    (decodeResponseH atob inflate parse h lexRef).2 ≠ lexRef ∧
    (decodeResponseH atob inflate parse h lexRef).1.objs lexRef = some raw ∧
    (decodeResponseH atob inflate parse h lexRef).1.objs
        (decodeResponseH atob inflate parse h lexRef).2 =
      some (decodeResponse atob inflate parse raw) ∧
    (raw.inputTranscript = .undef →
      (decodeResponse atob inflate parse raw).inputTranscript = .undef) ∧
    (raw.messages = .undef →
      (decodeResponse atob inflate parse raw).messages = .undef) ∧
    (∀ s, raw.sessionState = .str s →
      (decodeResponse atob inflate parse raw).sessionState =
        .parsed (parse (inflate ((atob s).data.map Char.toNat)))) ∧
    (∀ s, raw.inputTranscript = .str s → s ≠ "" →
      (decodeResponse atob inflate parse raw).inputTranscript =
        .parsed (parse (inflate ((atob s).data.map Char.toNat)))) ∧
    (∀ s, raw.messages = .str s → s ≠ "" →
      (decodeResponse atob inflate parse raw).messages =
        .parsed (parse (inflate ((atob s).data.map Char.toNat)))) ∧
    (decodeResponse atob inflate parse raw).extra = raw.extra := by
  rw [decodeResponseH_eq atob inflate parse h lexRef raw hraw]
  have hne : h.next ≠ lexRef := by omega
  refine ⟨hne, ?_, ?_, ?_, ?_, ?_, ?_, ?_, ?_⟩
  · simp [if_neg (by omega : ¬lexRef = h.next), hraw]
  · simp
  · intro hu
    unfold decodeResponse
    cases hm : jsTruthy raw.messages <;>
      simp [hu, hm, jsTruthy, decodeAndUnzipJsonString]
  · intro hu
    unfold decodeResponse
    cases hit : jsTruthy raw.inputTranscript <;>
      simp [hu, hit, jsTruthy, decodeAndUnzipJsonString] at *
  · intro s hs
    unfold decodeResponse
    cases hit : jsTruthy raw.inputTranscript <;>
      cases hm : jsTruthy raw.messages <;>
        simp [hs, hit, hm, decodeAndUnzipJsonString]
  · intro s hs hne
    have hemp : ¬s.isEmpty := fun hemp =>
      hne ((String.isEmpty_iff s).mp hemp)
    have htruthy : jsTruthy (JsVal.str s : JsVal J) = true := by
      simp [jsTruthy, hemp]
    unfold decodeResponse
    cases hm : jsTruthy raw.messages <;>
      simp [hs, htruthy, hm, decodeAndUnzipJsonString]
  · intro s hs hne
    have hemp : ¬s.isEmpty := fun hemp =>
      hne ((String.isEmpty_iff s).mp hemp)
    have htruthy : jsTruthy (JsVal.str s : JsVal J) = true := by
      simp [jsTruthy, hemp]
    unfold decodeResponse
    cases hit : jsTruthy raw.inputTranscript <;>
      simp [hs, htruthy, hit, decodeAndUnzipJsonString]
  · unfold decodeResponse
    cases hit : jsTruthy raw.inputTranscript <;>
      cases hm : jsTruthy raw.messages <;>
        simp [hit, hm]

/-- Witness for `c7_decodeResponse_frame` at a concrete heap and response:
after decoding, the input object is still unchanged at its reference. -/
theorem c7_decodeResponse_frame_witness :
    (decodeResponseH (J := String) (fun s => s) (fun _ => "null")
        (fun s => s)
        { next := 1,
          objs := fun r =>
            if r = 0 then some ⟨.str "abc", .undef, .undef, [("k", "v")]⟩
            else none } 0).1.objs 0 =
      some ⟨.str "abc", .undef, .undef, [("k", "v")]⟩ :=
  (c7_decodeResponse_frame String (fun s => s) (fun _ => "null") (fun s => s)
    _ 0 ⟨.str "abc", .undef, .undef, [("k", "v")]⟩ (by simp)
    (by norm_num)).2.1

/-! ## `_process`, `processWithText`, `_processWithAudio`

The remote call `lexRuntime.recognizeUtterance` is modelled as a function
parameter from the request parameters to either an error condition (the
callback's `error` argument, stringified) or a raw response (`data`).  The
source invokes it exactly once per `_process` call and never retries. -/

/-- The bot configuration held in `this._options`. -/
structure LexOptions where
  botId : Option String
  botAliasId : Option String
  localeId : String
  sessionId : String
deriving DecidableEq

/-- The input stream of a request: plain text, or the `Blob` wrapping the
encoded WAV bytes (`audioBlob none` is a `Blob` built around an `undefined`
buffer). -/
inductive InputStream where
  | textInput (text : String)
  | audioBlob (encodedAudio : Option (List ℕ))
deriving DecidableEq

/-- The `params` object passed to `recognizeUtterance`: the spread of
`this._options` plus the content types and the input stream. -/
structure RecognizeParams where
  botId : Option String
  botAliasId : Option String
  localeId : String
  sessionId : String
  requestContentType : String
  responseContentType : String
  inputStream : InputStream
deriving DecidableEq

/-- Build the `params` record of `_process`. -/
def mkParams (options : LexOptions) (contentType : String)
    (inputStream : InputStream) : RecognizeParams :=
  { botId := options.botId, botAliasId := options.botAliasId,
    localeId := options.localeId, sessionId := options.sessionId,
    requestContentType := contentType,
    responseContentType := "text/plain;charset=utf-8",
    inputStream := inputStream }

/-- The message of the error thrown by `_process`'s `.catch` handler
(template-literal interpolation of the original error). -/
def processErrorMessage (error : String) : String :=
  "Error happened during voice recording: " ++ error ++
    ". Please check whether your speech is more than 15s."

/-- What one `_process` call produces: the `(event, payload)` pairs emitted
via `this.emit`, in order, and the settled promise handed to the caller. -/
structure ProcessOutcome (J : Type) where
  events : List (String × LexResponse J)
  promise : Except String (LexResponse J)

/-- `_process(contentType, inputStream)`:
* on callback error the promise rejects, the `.catch` handler logs
  (`console.error`, not an event) and re-throws the wrapped error — no event
  is emitted;
* on callback success the `.then` handler decodes the response, emits
  `lexResponseReady` with the *decoded* response, and returns the *raw*
  `response`, which becomes the resolution value. -/
def _process {J : Type} (atob : String → String) (inflate : List ℕ → String)
    (parse : String → J)
    (recognizeUtterance : RecognizeParams → Except String (LexResponse J))
    (options : LexOptions) (contentType : String) (inputStream : InputStream) :
    ProcessOutcome J :=
  let params := mkParams options contentType inputStream
  match recognizeUtterance params with
  | .error error =>
    { events := [], promise := .error (processErrorMessage error) }
  | .ok response =>
    let decodedResponse := decodeResponse atob inflate parse response
    { events := [("lexResponseReady", decodedResponse)],
      promise := .ok response }

/-- `processWithText(inputText)`. -/
def processWithText {J : Type} (atob : String → String)
    (inflate : List ℕ → String) (parse : String → J)
    (recognizeUtterance : RecognizeParams → Except String (LexResponse J))
    (options : LexOptions) (inputText : String) : ProcessOutcome J :=
  _process atob inflate parse recognizeUtterance options
    "text/plain; charset=utf-8" (.textInput inputText)

/-- `_prepareAudio(audioBuffer, sourceSampleRate)`: downsample to
`LEX_DEFAULTS.SampleRate`, encode as WAV, wrap in a `Blob`.

`LEX_DEFAULTS.SampleRate` is the *string* `"16000"`; the comparisons and
arithmetic inside `downsampleAudio`/`encodeWAV` coerce it to the number
16000, except `sourceSampleRate === "16000"`, which is false even when the
rates agree numerically (strict equality across types).  The model passes
the number 16000, which additionally enables the identity fast path at
source rate 16000; the claims that use `_prepareAudio` treat the produced
bytes as opaque, so this difference is immaterial to them. -/
def _prepareAudio (audioBuffer : List ℚ) (sourceSampleRate : ℚ) :
    JsOutcome InputStream :=
  match downsampleAudio audioBuffer sourceSampleRate 16000 with
  | .thrown msg => .thrown msg
  | .result none =>
    .result (some (.audioBlob none))
  | .result (some downsampledAudio) =>
    .result (some (.audioBlob (some (encodeWAV downsampledAudio 16000))))

/-- `_processWithAudio(inputAudio, sourceSampleRate)`: prepare the audio
(a throw there propagates synchronously), then `_process` with the audio
content type. -/
def _processWithAudio {J : Type} (atob : String → String)
    (inflate : List ℕ → String) (parse : String → J)
    (recognizeUtterance : RecognizeParams → Except String (LexResponse J))
    (options : LexOptions) (inputAudio : List ℚ) (sourceSampleRate : ℚ) :
    JsOutcome (ProcessOutcome J) :=
  match _prepareAudio inputAudio sourceSampleRate with
  | .thrown msg => .thrown msg
  | .result none => .result none
  | .result (some audio) =>
    .result (some (_process atob inflate parse recognizeUtterance options
      "audio/x-l16; rate=16000" audio))

/-- C1 counterexample: on a failing remote call (condition
`"ResourceNotFoundException"`), the adapter emits *zero* events — in
particular not the one error event the claim requires.  `LexV2Feature`
defines no error event at all; the failure is only logged via
`console.error` and re-thrown.  The rejection does reach the caller
(second conjunct), wrapped in the `.catch` handler's message. -/
theorem c1_failure_emits_no_error_event :
    (processWithText (J := String) (fun s => s) (fun _ => "null")
        (fun s => s) (fun _ => .error "ResourceNotFoundException")
        ⟨none, none, "en_US", "sess"⟩ "hello").events = [] ∧
      (processWithText (J := String) (fun s => s) (fun _ => "null")
        (fun s => s) (fun _ => .error "ResourceNotFoundException")
        ⟨none, none, "en_US", "sess"⟩ "hello").promise =
        .error (processErrorMessage "ResourceNotFoundException") :=
  ⟨rfl, rfl⟩

/-- C1 (amended): for every remote invocation (audio or text) whose
`recognizeUtterance` call fails, the adapter publishes *no* events at all —
no error event (none is defined; the condition is only logged to the console)
and zero `lexResponseReady` events — and propagates the failure as a rejected
result to the immediate caller, wrapped in a new error whose message embeds
the original condition; `recognizeUtterance` is invoked exactly once, with no
automatic retry. -/
theorem c1_failure_rejects_without_events (J : Type) (atob : String → String)
    (inflate : List ℕ → String) (parse : String → J)
    (recognizeUtterance : RecognizeParams → Except String (LexResponse J))
    (options : LexOptions) :
    (∀ (contentType : String) (inputStream : InputStream) (error : String),
      recognizeUtterance (mkParams options contentType inputStream) =
          .error error →
      (_process atob inflate parse recognizeUtterance options contentType
          inputStream).events = [] ∧
      (_process atob inflate parse recognizeUtterance options contentType
          inputStream).promise = .error (processErrorMessage error)) ∧
    (∀ inputText,
      processWithText atob inflate parse recognizeUtterance options
          inputText =
        _process atob inflate parse recognizeUtterance options
          "text/plain; charset=utf-8" (.textInput inputText)) ∧
    (∀ (inputAudio : List ℚ) (sourceSampleRate : ℚ) (audio : InputStream),
      _prepareAudio inputAudio sourceSampleRate = .result (some audio) →
      _processWithAudio atob inflate parse recognizeUtterance options
          inputAudio sourceSampleRate =
        .result (some (_process atob inflate parse recognizeUtterance options
          "audio/x-l16; rate=16000" audio))) := by
  refine ⟨?_, fun _ => rfl, ?_⟩
  · intro contentType inputStream error herr
    unfold _process
    dsimp only
    rw [herr]
    exact ⟨rfl, rfl⟩
  · intro inputAudio sourceSampleRate audio hprep
    unfold _processWithAudio
    rw [hprep]

/-- Witness for `c1_failure_rejects_without_events` with a constantly
failing remote call. -/
theorem c1_failure_rejects_without_events_witness :
    (_process (J := String) (fun s => s) (fun _ => "null") (fun s => s)
        (fun _ => .error "ResourceNotFoundException")
        ⟨none, none, "en_US", "sess"⟩ "text/plain; charset=utf-8"
        (.textInput "hello")).events = [] ∧
      (_process (J := String) (fun s => s) (fun _ => "null") (fun s => s)
        (fun _ => .error "ResourceNotFoundException")
        ⟨none, none, "en_US", "sess"⟩ "text/plain; charset=utf-8"
        (.textInput "hello")).promise =
        .error (processErrorMessage "ResourceNotFoundException") :=
  (c1_failure_rejects_without_events String (fun s => s) (fun _ => "null")
    (fun s => s) (fun _ => .error "ResourceNotFoundException")
    ⟨none, none, "en_US", "sess"⟩).1 "text/plain; charset=utf-8"
    (.textInput "hello") "ResourceNotFoundException" rfl

/-- C2 counterexample: on a successful call, the promise resolves with the
*raw* (still encoded) response, while the decoded response — which the claim
says should be the resolution value — differs from it.  (Concrete
instantiation: `J := String`, `atob := id`, `inflate := fun _ => "null"`,
`parse := id`; the raw response carries `sessionState = "abc"`.) -/
theorem c2_resolves_raw_not_decoded :
    (processWithText (J := String) (fun s => s) (fun _ => "null")
        (fun s => s) (fun _ => .ok ⟨.str "abc", .undef, .undef, []⟩)
        ⟨none, none, "en_US", "sess"⟩ "hello").promise =
      .ok ⟨.str "abc", .undef, .undef, []⟩ ∧
      decodeResponse (J := String) (fun s => s) (fun _ => "null")
          (fun s => s) ⟨.str "abc", .undef, .undef, []⟩ ≠
        ⟨.str "abc", .undef, .undef, []⟩ := by
  refine ⟨rfl, ?_⟩
  intro hcontra
  have h2 : (decodeResponse (J := String) (fun s => s) (fun _ => "null")
      (fun s => s) ⟨.str "abc", .undef, .undef, []⟩).sessionState =
      .parsed "null" := rfl
  rw [hcontra] at h2
  simp at h2

/-- C2 (amended): for every successful remote invocation, both entry points
resolve their promise with the *raw* (undecoded) service response; the
decoded response (base64 + compressed fields replaced by parsed data) is
delivered to subscribers as the payload of the single `lexResponseReady`
event, not as the resolution value. -/
theorem c2_success_resolves_raw (J : Type) (atob : String → String)
    (inflate : List ℕ → String) (parse : String → J)
    (recognizeUtterance : RecognizeParams → Except String (LexResponse J))
    (options : LexOptions) :
    (∀ (inputText : String) (raw : LexResponse J),
      recognizeUtterance
          (mkParams options "text/plain; charset=utf-8"
            (.textInput inputText)) = .ok raw →
      processWithText atob inflate parse recognizeUtterance options
          inputText =
        ⟨[("lexResponseReady", decodeResponse atob inflate parse raw)],
          .ok raw⟩) ∧
    (∀ (inputAudio : List ℚ) (sourceSampleRate : ℚ) (audio : InputStream)
        (raw : LexResponse J),
      _prepareAudio inputAudio sourceSampleRate = .result (some audio) →
      recognizeUtterance
          (mkParams options "audio/x-l16; rate=16000" audio) = .ok raw →
      _processWithAudio atob inflate parse recognizeUtterance options
          inputAudio sourceSampleRate =
        .result (some
          ⟨[("lexResponseReady", decodeResponse atob inflate parse raw)],
            .ok raw⟩)) := by
  constructor
  · intro inputText raw hok
    unfold processWithText _process
    dsimp only
    rw [hok]
  · intro inputAudio sourceSampleRate audio raw hprep hok
    unfold _processWithAudio
    rw [hprep]
    unfold _process
    dsimp only
    rw [hok]

/-- Witness for `c2_success_resolves_raw` with a constantly succeeding
remote call. -/
theorem c2_success_resolves_raw_witness :
    processWithText (J := String) (fun s => s) (fun _ => "null")
        (fun s => s) (fun _ => .ok ⟨.str "abc", .undef, .undef, []⟩)
        ⟨none, none, "en_US", "sess"⟩ "hello" =
      ⟨[("lexResponseReady",
          decodeResponse (fun s => s) (fun _ => "null") (fun s => s)
            ⟨.str "abc", .undef, .undef, []⟩)],
        .ok ⟨.str "abc", .undef, .undef, []⟩⟩ :=
  (c2_success_resolves_raw String (fun s => s) (fun _ => "null") (fun s => s)
    (fun _ => .ok ⟨.str "abc", .undef, .undef, []⟩)
    ⟨none, none, "en_US", "sess"⟩).1 "hello" _ rfl

/-! ## The microphone recording state machine -/

/-- The microphone-related fields of a `LexV2Feature` instance
(`_micReady`, `_recording`, `_recLength`, `_recBuffer`), together with the
audio context's state string and its (fixed) capture sample rate. -/
structure MicState where
  micReady : Bool
  recording : Bool
  recLength : ℕ
  recBuffer : List (List ℚ)
  audioContextState : String
  contextSampleRate : ℚ

/-- The constructor's initialisation: `_micReady = false`,
`_recording = false`, `_recLength = 0`, `_recBuffer = []`; the audio context
state and device sample rate are environment-given. -/
def initialState (audioContextState : String) (contextSampleRate : ℚ) :
    MicState :=
  { micReady := false, recording := false, recLength := 0, recBuffer := [],
    audioContextState := audioContextState,
    contextSampleRate := contextSampleRate }

/-- The `onaudioprocess` callback installed by `enableMicInput`: when not
recording, do nothing; otherwise push a copy of the chunk and add its length
to `_recLength`. -/
def onaudioprocess (s : MicState) (buffer : List ℚ) : MicState :=
  if !s.recording then s
  else
    { s with recBuffer := s.recBuffer ++ [buffer],
             recLength := s.recLength + buffer.length }

/-- Successful completion of `enableMicInput()`: emit `micReady` and set
`_micReady = true` (the media plumbing is outside the model). -/
def enableMicInput (s : MicState) : MicState × List String :=
  ({ s with micReady := true }, ["micReady"])

/-- `beginVoiceRecording()`: a no-op unless the mic is ready; otherwise
resume a suspended/interrupted audio context (`resume()` is asynchronous in
the browser; the model applies the state change directly), reset
`_recLength`/`_recBuffer`, set `_recording` and emit `recordBegin`. -/
def beginVoiceRecording (s : MicState) : MicState × List String :=
  if !s.micReady then (s, [])
  else
    let s :=
      if s.audioContextState = "suspended" ∨
          s.audioContextState = "interrupted" then
        { s with audioContextState := "running" }
      else s
    ({ s with recLength := 0, recBuffer := [], recording := true },
      ["recordBegin"])

/-- The audio payload handed to `_processWithAudio` when recording stops. -/
structure Submission where
  samples : List ℚ
  sourceSampleRate : ℚ
deriving DecidableEq

/-- `new Float32Array(_recLength)` filled by `result.set(chunk, offset)` at
the running offsets.  When `_recLength` equals the total of the chunk
lengths — the invariant proved in `c9_buffer_length_invariant` — this is
exactly the concatenation of the chunks.  (The definition totalises the
out-of-invariant cases, where `Float32Array.set` would throw a `RangeError`,
by truncation / zero-padding.) -/
def buildResult (recLength : ℕ) (recBuffer : List (List ℚ)) : List ℚ :=
  let flat := recBuffer.flatten
  flat.take recLength ++ List.replicate (recLength - flat.length) 0

/-- `endVoiceRecording()`: while not recording, return `Promise.resolve()`
immediately (no event, no submission, no state change); otherwise clear
`_recording`, concatenate the buffered chunks, emit `recordEnd` and submit
the result at the context's sample rate. -/
def endVoiceRecording (s : MicState) :
    MicState × List String × Option Submission :=
  if !s.recording then (s, [], none)
  else
    let s' := { s with recording := false }
    let result := buildResult s'.recLength s'.recBuffer
    (s', ["recordEnd"], some ⟨result, s.contextSampleRate⟩)

/-- States reachable from construction through any sequence of the four
microphone operations. -/
inductive Reachable : MicState → Prop
  | init (ctx : String) (rate : ℚ) : Reachable (initialState ctx rate)
  | mic {s : MicState} : Reachable s → Reachable (enableMicInput s).1
  | chunk {s : MicState} (buffer : List ℚ) :
      Reachable s → Reachable (onaudioprocess s buffer)
  | beginRec {s : MicState} :
      Reachable s → Reachable (beginVoiceRecording s).1
  | endRec {s : MicState} :
      Reachable s → Reachable (endVoiceRecording s).1

/-- C8: calling `endVoiceRecording` while not in the recording state is a
no-op that resolves immediately: no `recordEnd` event, no submission, and
the whole state — including the recording flag, the sample buffer and the
accumulated sample count — is unchanged. -/
theorem c8_end_without_recording_noop (s : MicState)
    (h : s.recording = false) :
    endVoiceRecording s = (s, [], none) := by
  unfold endVoiceRecording
  rw [h]
  rfl

/-- Witness for `c8_end_without_recording_noop` at a freshly constructed
state. -/
theorem c8_end_without_recording_noop_witness :
    endVoiceRecording (initialState "running" 44100) =
      (initialState "running" 44100, [], none) :=
  c8_end_without_recording_noop (initialState "running" 44100) rfl

/-- C10: calling `beginVoiceRecording` before the microphone is ready
(`_micReady = false`) is a no-op: no `recordBegin` event, and the whole
state — recording flag, sample buffer and accumulated count included — is
unchanged. -/
theorem c10_begin_without_mic_noop (s : MicState)
    (h : s.micReady = false) :
    beginVoiceRecording s = (s, []) := by
  unfold beginVoiceRecording
  rw [h]
  rfl

/-- Witness for `c10_begin_without_mic_noop` at a freshly constructed
state. -/
theorem c10_begin_without_mic_noop_witness :
    beginVoiceRecording (initialState "suspended" 48000) =
      (initialState "suspended" 48000, []) :=
  c10_begin_without_mic_noop (initialState "suspended" 48000) rfl

/-- The accumulated count `_recLength` equals the total length of the
buffered chunks in every reachable state. -/
theorem recLength_eq_sum :
    ∀ s : MicState, Reachable s →
      s.recLength = (s.recBuffer.map List.length).sum := by
  intro s hs
  induction hs with
  | init ctx rate => rfl
  | mic _ ih => simpa [enableMicInput] using ih
  | chunk buffer _ ih =>
    unfold onaudioprocess
    split
    · exact ih
    · simp [ih]
  | beginRec _ ih =>
    unfold beginVoiceRecording
    split
    · exact ih
    · split <;> rfl
  | endRec _ ih =>
    unfold endVoiceRecording
    split
    · exact ih
    · simpa using ih

/-- C9: in every reachable adapter state the accumulated sample count
`_recLength` equals the sum of the lengths of the chunks in `_recBuffer`
(the invariant holds initially and is preserved by chunk appends, by the
reset at `beginVoiceRecording` and by `endVoiceRecording`); consequently the
submitted result is exactly the concatenation of all buffered chunks; and a
submission is produced only by `endVoiceRecording` on a recording state,
whose post-state has `_recording = false` and an untouched buffer — i.e.
encoding/submission only begins after recording has been explicitly
stopped. -/
theorem c9_buffer_length_invariant :
    (∀ s : MicState, Reachable s →
      s.recLength = (s.recBuffer.map List.length).sum) ∧
    (∀ s : MicState, Reachable s →
      buildResult s.recLength s.recBuffer = s.recBuffer.flatten) ∧
    (∀ s : MicState, s.recording = true →
      endVoiceRecording s =
        ({ s with recording := false }, ["recordEnd"],
          some ⟨buildResult s.recLength s.recBuffer,
            s.contextSampleRate⟩)) := by
  refine ⟨recLength_eq_sum, ?_, ?_⟩
  · intro s hs
    have hlen : s.recLength = s.recBuffer.flatten.length := by
      rw [recLength_eq_sum s hs, List.length_flatten]
    unfold buildResult
    rw [hlen]
    simp
  · intro s h
    unfold endVoiceRecording
    rw [h]
    rfl

/-- Witness for `c9_buffer_length_invariant` at a concrete reachable state:
after enabling the mic, starting a recording and receiving the chunk
`[1, 2, 3]`, the accumulated count equals the total chunk length. -/
theorem c9_buffer_length_invariant_witness :
    (onaudioprocess
        (beginVoiceRecording
          (enableMicInput (initialState "suspended" 48000)).1).1
        [1, 2, 3]).recLength =
      ((onaudioprocess
        (beginVoiceRecording
          (enableMicInput (initialState "suspended" 48000)).1).1
        [1, 2, 3]).recBuffer.map List.length).sum :=
  c9_buffer_length_invariant.1 _
    (.chunk [1, 2, 3] (.beginRec (.mic (.init "suspended" 48000))))

end LexV2
